import Mathlib

/-!
Verification of `reddit_to_telegram_bot.py` (NBA-RSS-Reddit-HOT-Posts).

Python strings are modelled as `List Char` (Python `len` counts code points,
as does `List.length` on the char list).  Machine integers from the script are
modelled as `Int` (Python ints are unbounded).  Each definition below embeds
the source function of the same name; network and file effects are
parameterised: the JSON payload a function would fetch, and the outcome of a
send call, are passed in as arguments, and the function computes everything
the script computes from them.
-/

/-- Python strings as lists of characters. -/
abbrev PyStr := List Char

/-- The six ASCII whitespace characters recognised by Python's `str.split` /
`str.strip` (the script only ever meets ASCII whitespace). -/
def pyIsSpace (c : Char) : Bool :=
  c == ' ' || c == '\t' || c == '\n' || c == '\r' || c == '\x0b' || c == '\x0c'

/-- Python `str.rstrip()` with no argument: drop trailing whitespace. -/
def pyRstrip (l : PyStr) : PyStr :=
  (l.reverse.dropWhile pyIsSpace).reverse

/-- Python `str.strip()` with no argument: drop leading and trailing whitespace. -/
def pyStrip (l : PyStr) : PyStr :=
  pyRstrip (l.dropWhile pyIsSpace)

/-- Helper for `pySplit`: accumulates the current word (reversed). -/
def pyWordsAux : List Char → List Char → List (List Char)
  | [], acc => if acc = [] then [] else [acc.reverse]
  | c :: cs, acc =>
    if pyIsSpace c then
      if acc = [] then pyWordsAux cs [] else acc.reverse :: pyWordsAux cs []
    else pyWordsAux cs (c :: acc)

/-- Python `str.split()` with no argument: maximal runs of non-whitespace. -/
def pySplit (l : PyStr) : List PyStr :=
  pyWordsAux l []

/-- Python `sep.join(parts)`. -/
def pyJoin (sep : PyStr) : List PyStr → PyStr
  | [] => []
  | [p] => p
  | p :: ps => p ++ sep ++ pyJoin sep ps

/-- Source `collapse_ws` (line 61): `" ".join((text or "").strip().split())`. -/
def collapse_ws (text : PyStr) : PyStr :=
  pyJoin [' '] (pySplit (pyStrip text))

/-- Python slicing `l[:stop]` for an integer `stop`: a negative stop counts
from the end (clamped at zero). -/
def pySlice (l : PyStr) (stop : Int) : PyStr :=
  if 0 ≤ stop then l.take stop.toNat else l.take ((l.length : Int) + stop).toNat

/-- Source `truncate` (line 64): collapse whitespace, keep the string if it
fits, else cut to `max_len - 1` characters, right-strip, and append `…`. -/
def truncate (text : PyStr) (max_len : Int) : PyStr :=
  let t := collapse_ws text
  if (t.length : Int) ≤ max_len then t else pyRstrip (pySlice t (max_len - 1)) ++ ['…']

/-- Per-character expansion of Python `html.escape(s, quote=True)`.  The
stdlib escapes `&` first and then the other four characters, which is exactly
a character-wise substitution. -/
def escChar (c : Char) : List Char :=
  if c = '&' then "&amp;".toList
  else if c = '<' then "&lt;".toList
  else if c = '>' then "&gt;".toList
  else if c = '"' then "&quot;".toList
  else if c = '\'' then "&#x27;".toList
  else [c]

/-- Python `html.escape(s, quote=True)` as used throughout the script. -/
def htmlEscape (s : PyStr) : PyStr :=
  (s.map escChar).flatten

/-- Python `s.replace("&amp;", "&")` (left-to-right, non-overlapping). -/
def replaceAmp : List Char → List Char
  | '&' :: 'a' :: 'm' :: 'p' :: ';' :: rest => '&' :: replaceAmp rest
  | c :: rest => c :: replaceAmp rest
  | [] => []

/-- Truthiness of an optional Python string (`None` and `""` are falsy). -/
def pyTruthy : Option PyStr → Bool
  | some s => !s.isEmpty
  | none => false

/-- Python `a or b` on two optional strings (used for `url_overridden_by_dest
or url`). -/
def pyOr (a b : Option PyStr) : Option PyStr :=
  if pyTruthy a then a else b

/-- Python `a or b` where `b` is a plain string default. -/
def pyOrStr (a : Option PyStr) (b : PyStr) : PyStr :=
  if pyTruthy a then a.getD [] else b

/-- Python `str.startswith`. -/
def pyStartsWith (s pre : PyStr) : Bool :=
  pre.isPrefixOf s

/-- Python `str(i)` / f-string interpolation of an int. -/
def intRepr (i : Int) : PyStr :=
  (toString i).toList

/-- Telegram media-caption ceiling (source line 45). -/
def TG_CAPTION_LIMIT : Nat := 1024

/-- Telegram plain-message ceiling (source line 46). -/
def TG_MESSAGE_LIMIT : Nat := 4096

/-- The fields the script reads through `extract_crosspost_root`: the
crosspost origin (or the post itself) is probed for `selftext`,
`secure_media` / `media` (hosted video) and the gallery metadata.  An absent
key and an empty dict behave identically everywhere these fields are used, so
both are modelled as `none`. -/
structure RedditVideo where
  fallback_url : Option PyStr
deriving DecidableEq

structure MediaObj where
  reddit_video : Option RedditVideo
deriving DecidableEq

structure SourceEntry where
  u : Option PyStr
deriving DecidableEq

structure PreviewEntry where
  u : Option PyStr
deriving DecidableEq

structure MediaItem where
  s : Option SourceEntry
  p : Option (List PreviewEntry)
deriving DecidableEq

structure GalleryItem where
  media_id : Option PyStr
deriving DecidableEq

structure GalleryData where
  items : Option (List GalleryItem)
deriving DecidableEq

structure PostCore where
  selftext : Option PyStr
  secure_media : Option MediaObj
  media : Option MediaObj
  media_metadata : Option (List (PyStr × MediaItem))
  gallery_data : Option GalleryData
deriving DecidableEq

/-- One listing entry (`d` in the script).  Fields with a `.get` default in
the source are stored post-default (`title`, `permalink`, `post_hint` default
to `""`; the boolean flags default to falsy); fields read as `d.get(k)` with
`or`-defaulting at the use site stay optional. -/
structure Post where
  core : PostCore
  title : PyStr
  permalink : PyStr
  id : Option PyStr
  name : Option PyStr
  post_hint : PyStr
  url_overridden_by_dest : Option PyStr
  url : Option PyStr
  is_video : Bool
  is_gallery : Bool
  stickied : Bool
  crosspost_parent_list : List PostCore
deriving DecidableEq

/-- Source `extract_crosspost_root` (line 81): first crosspost parent if the
list is present and non-empty, else the post itself. -/
def extract_crosspost_root (d : Post) : PostCore :=
  match d.crosspost_parent_list with
  | r :: _ => r
  | [] => d.core

/-- Source `selftext_excerpt` (line 87). -/
def selftext_excerpt (d : Post) (limit : Int) : PyStr :=
  let root := extract_crosspost_root d
  let txt := collapse_ws (root.selftext.getD [])
  if txt = [] then [] else truncate txt limit

/-- Source `is_media_post` (line 94). -/
def is_media_post (d : Post) : Bool :=
  d.is_video || d.post_hint == "image".toList || d.post_hint == "hosted:video".toList
    || d.is_gallery

/-- Source `first_gallery_image` (line 213).  Every `KeyError`/`IndexError`
the `try` block can raise is modelled by the corresponding `Option` being
`none`, which yields `none` exactly as the `except` clause does. -/
def first_gallery_image (post : PostCore) : Option PyStr :=
  match post.media_metadata, post.gallery_data with
  | none, _ => none
  | some [], _ => none
  | some _, none => none
  | some md, some gd =>
    match gd.items with
    | none => none
    | some [] => none
    | some (it :: _) =>
      match it.media_id with
      | none => none
      | some fid =>
        let item := (md.lookup fid).getD ⟨none, none⟩
        match item.s.bind SourceEntry.u with
        | some u => some (replaceAmp u)
        | none =>
          match item.p with
          | some (ps@(_ :: _)) =>
            match ps.getLast?.bind PreviewEntry.u with
            | some u => some (replaceAmp u)
            | none => none
          | _ => none

/-- One ranked comment as produced by `fetch_top_comments`: the
`(author, score, body)` tuple of the source. -/
structure CommentRow where
  author : PyStr
  score : Int
  body : PyStr
deriving DecidableEq

/-- The environment-derived limits used by `compose_caption`
(`CHAR_LIMIT`, `BODY_CHAR_LIMIT`, `COMMENT_CHAR_LIMIT`; source lines 37-40).
`COMMENT_CHAR_LIMIT` is a non-negative count, so it is carried as a `Nat`;
for non-negative ints the Python shrink step `int(per_limit * 0.8)` computes
exactly `per_limit * 4 / 5` (the double-rounding of `0.8` never crosses an
integer at these magnitudes), which is how it is modelled below. -/
structure Config where
  titleLimit : Int
  bodyLimit : Int
  commentLimit : Nat
deriving DecidableEq

/-- The `"--------"` separator block of `compose_caption`. -/
def sep8 : PyStr := "--------".toList

/-- `sep_len = len("\n--------\n")` from source line 266. -/
def sep_len : Int := (("\n--------\n".toList).length : Int)

/-- Title block (source lines 234-235). -/
def title_block_of (cfg : Config) (d : Post) : PyStr :=
  "<b>".toList ++ htmlEscape (truncate (collapse_ws d.title) cfg.titleLimit) ++ "</b>".toList

/-- Link line (source line 244). -/
def link_line_of (d : Post) : PyStr :=
  "<a href=\"".toList ++ htmlEscape ("https://www.reddit.com".toList ++ d.permalink)
    ++ "\">Читать на Reddit →</a>".toList

/-- `hard_limit` (source line 246). -/
def hard_limit_of (d : Post) : Nat :=
  if is_media_post d then TG_CAPTION_LIMIT else TG_MESSAGE_LIMIT

/-- `base_text` (source lines 249-253): title, separator when a body excerpt
is present, link line, joined by newlines. -/
def base_text_of (cfg : Config) (d : Post) : PyStr :=
  pyJoin ['\n'] ([title_block_of cfg d]
    ++ (if selftext_excerpt d cfg.bodyLimit ≠ [] then [sep8] else [])
    ++ [link_line_of d])

/-- `budget` after the skeleton (source line 254). -/
def budget0_of (cfg : Config) (d : Post) : Int :=
  max 0 ((hard_limit_of d : Int) - ((base_text_of cfg d).length : Int) - 1)

/-- `body_block` (source lines 257-261). -/
def body_block_of (cfg : Config) (d : Post) : PyStr :=
  let body := selftext_excerpt d cfg.bodyLimit
  let budget := budget0_of cfg d
  if body ≠ [] ∧ 0 < budget then
    htmlEscape (body.take (min body.length budget.toNat))
  else []

/-- `budget` after the body block (source line 261): the branch that builds a
body block subtracts the escaped length, the other leaves the budget alone —
the two cases agree because an unbuilt block has length 0. -/
def budget1_of (cfg : Config) (d : Post) : Int :=
  budget0_of cfg d - ((body_block_of cfg d).length : Int)

/-- One rendered comment line (source lines 275-277):
`• u/<author> (+<score>): <escaped excerpt>`. -/
def renderCommentLine (per_limit : Nat) (c : CommentRow) : PyStr :=
  "• u/".toList ++ c.author ++ " (+".toList ++ intRepr c.score ++ "): ".toList
    ++ htmlEscape (truncate c.body (per_limit : Int))

/-- `total` of a candidate comment list (source line 279): each line counts
its length plus one. -/
def totalLen (lines : List PyStr) : Int :=
  ((lines.map (fun l => l.length + 1)).sum : Nat)

/-- `per_limit = max(min_per_limit, int(per_limit * 0.8))` (source line 284). -/
def shrinkPer (per : Nat) : Nat :=
  max 60 (per * 4 / 5)

/-- The shrink-and-retry loop (source lines 271-284), fuelled by the 20
iterations of `range(20)`: rendering all comments at the current per-comment
limit, accepting the first rendering whose total fits the budget. -/
def fitLoop (tc : List CommentRow) : Nat → Nat → Int → List PyStr
  | 0, _, _ => []
  | n + 1, per, b =>
    let tmp := tc.map (renderCommentLine per)
    if totalLen tmp ≤ b then tmp else fitLoop tc n (shrinkPer per) b

/-- `comment_blocks` (source lines 264-284). -/
def comment_blocks_of (cfg : Config) (d : Post) (tc : List CommentRow) : List PyStr :=
  let b := budget1_of cfg d
  if tc ≠ [] ∧ 0 < b then
    (if sep_len < b then fitLoop tc 20 cfg.commentLimit (b - sep_len) else [])
  else []

/-- The `out` list of blocks (source lines 287-294). -/
def out_parts_of (cfg : Config) (d : Post) (tc : List CommentRow) : List PyStr :=
  [title_block_of cfg d]
    ++ (if body_block_of cfg d ≠ [] then [sep8, body_block_of cfg d] else [])
    ++ (if comment_blocks_of cfg d tc ≠ [] then sep8 :: comment_blocks_of cfg d tc else [])
    ++ [link_line_of d]

/-- The assembled text before the defensive hard-truncation (source line 296). -/
def assembled_of (cfg : Config) (d : Post) (tc : List CommentRow) : PyStr :=
  pyJoin ['\n'] (out_parts_of cfg d tc)

/-- Source `compose_caption` (line 228), with the ranked comments the script
would fetch passed in as `tc`.  Returns the final text and the media flag. -/
def compose_caption (cfg : Config) (d : Post) (tc : List CommentRow) : PyStr × Bool :=
  let hard := hard_limit_of d
  let text := assembled_of cfg d tc
  (if hard < text.length then pyRstrip (text.take (hard - 1)) ++ ['…'] else text,
   is_media_post d)

/-- One raw node of the comment-thread JSON (`c` in `fetch_top_comments`),
restricted to the keys the script reads.  `kind` defaults to `""` when
absent; value-or-default reads stay optional. -/
structure RawComment where
  kind : PyStr
  stickied : Bool
  distinguished : Option PyStr
  removed_by_category : Option PyStr
  body : Option PyStr
  author : Option PyStr
  score : Option Int
deriving DecidableEq

/-- The effective author: `cd.get("author") or "unknown"` (source line 314). -/
def effAuthor (c : RawComment) : PyStr :=
  if pyTruthy c.author then c.author.getD [] else "unknown".toList

/-- One iteration of the filtering loop of `fetch_top_comments`
(source lines 308-317): `none` when the node is skipped by a `continue`. -/
def commentRow (c : RawComment) : Option CommentRow :=
  if c.kind ≠ "t1".toList then none
  else if c.stickied || pyTruthy c.distinguished then none
  else
    let body := c.body.getD []
    if pyTruthy c.removed_by_category || body == "[removed]".toList
        || body == "[deleted]".toList then none
    else
      let author := effAuthor c
      if author = "AutoModerator".toList then none
      else some ⟨author, c.score.getD 0, collapse_ws body⟩

/-- Stable descending insertion by score: the element being inserted comes
from earlier in the original list than everything already sorted, so it goes
before the first element whose score is not larger. -/
def insertDesc (x : CommentRow) : List CommentRow → List CommentRow
  | [] => [x]
  | y :: ys => if y.score < x.score ∨ y.score = x.score then x :: y :: ys
               else y :: insertDesc x ys

/-- The model of `rows.sort(key=lambda x: x[1], reverse=True)` (source line
318): Python's sort is stable and `reverse=True` keeps ties in original
order, which is exactly what repeated stable insertion produces. -/
def sortDesc : List CommentRow → List CommentRow
  | [] => []
  | x :: xs => insertDesc x (sortDesc xs)

/-- Source `fetch_top_comments` (line 303), parameterised by the reply nodes
`children` that the network fetch would return (`js[1]["data"]["children"]`).
The early guard, the filtering loop, the stable descending sort and the final
`rows[:max(0, count)]` slice are all from the source. -/
def fetch_top_comments (post_id36 : PyStr) (count : Int)
    (children : List RawComment) : List CommentRow :=
  if post_id36 = [] ∨ count ≤ 0 then []
  else (sortDesc (children.filterMap commentRow)).take (max 0 count).toNat

/-- Observable behaviour of one run of the OAuth read loop: the sequence of
back-off sleeps (exact rationals standing for the float delays), the number
of forced token refreshes, and either the successful status or the status
`raise_for_status` raises on. -/
inductive FetchOutcome where
  | ok (status : Nat)
  | error (status : Nat)
deriving DecidableEq

structure FetchTrace where
  sleeps : List ℚ
  refreshes : Nat
  outcome : FetchOutcome
deriving DecidableEq

/-- The retry loop of `reddit_json_via_oauth` (source lines 139-158),
parameterised by the list of HTTP status codes the successive attempts
observe (one per attempt; the loop makes at most `len statuses` attempts).
`last` is the status of the previous response, raised on loop exhaustion. -/
def oauthLoop : Nat → ℚ → List Nat → FetchTrace
  | last, _, [] => ⟨[], 0, FetchOutcome.error last⟩
  | _, backoff, s :: rest =>
    if s < 400 then ⟨[], 0, FetchOutcome.ok s⟩
    else if s = 401 then
      let t := oauthLoop s backoff rest
      ⟨t.sleeps, t.refreshes + 1, t.outcome⟩
    else if s = 403 ∨ s = 429 ∨ (500 ≤ s ∧ s < 600) then
      let t := oauthLoop s (backoff * (9 / 5)) rest
      ⟨backoff :: t.sleeps, t.refreshes, t.outcome⟩
    else ⟨[], 0, FetchOutcome.error s⟩

/-- Source `reddit_json_via_oauth` (line 131) with `max_retries = 3`:
the caller supplies the statuses of the (up to three) attempts; the initial
back-off is 1.5 and each transient retry multiplies it by 1.8. -/
def reddit_json_via_oauth (statuses : List Nat) : FetchTrace :=
  oauthLoop 0 (3 / 2) statuses

/-- Which Telegram delivery primitive `handle_post` invokes, with its
arguments (source lines 347-377). -/
inductive SendCall where
  | sendVideo (url caption : PyStr)
  | sendPhoto (url caption : PyStr)
  | sendMessage (text : PyStr)
deriving DecidableEq

/-- Outcome of the one delivery call: the API replied OK, replied not-OK, or
the call raised (both failure shapes set `sent_ok = False`, source lines
353-380). -/
inductive SendOutcome where
  | ok
  | failed
  | raised
deriving DecidableEq

/-- `(root.get("secure_media") or root.get("media") or {}).get("reddit_video")`
(source line 349): a falsy `secure_media` falls through to `media`; a truthy
one is used even when it carries no `reddit_video`. -/
def redditVideoOf (root : PostCore) : Option RedditVideo :=
  match root.secure_media with
  | some m => m.reddit_video
  | none =>
    match root.media with
    | some m => m.reddit_video
    | none => none

/-- The delivery primitive selected by the `try` block of `handle_post`
(source lines 347-377), given the media mode, the composed caption and the
media classification flag. -/
def dispatchCall (mediaMode : PyStr) (d : Post) (caption : PyStr) (media : Bool) : SendCall :=
  let root := extract_crosspost_root d
  let url := pyOr d.url_overridden_by_dest d.url
  let textLink := pyOrStr url ("https://www.reddit.com".toList ++ d.permalink)
  let use_media := mediaMode ≠ "text_only".toList ∧ media = true
  if use_media then
    if d.is_video || d.post_hint == "hosted:video".toList then
      match (redditVideoOf root).bind RedditVideo.fallback_url with
      | some fb =>
        if fb ≠ [] then SendCall.sendVideo fb caption
        else SendCall.sendMessage (caption ++ "\n\n".toList ++ htmlEscape textLink)
      | none => SendCall.sendMessage (caption ++ "\n\n".toList ++ htmlEscape textLink)
    else if d.is_gallery then
      match first_gallery_image root with
      | some img =>
        if img ≠ [] then SendCall.sendPhoto img caption
        else SendCall.sendMessage (caption ++ "\n\n".toList ++ htmlEscape textLink)
      | none => SendCall.sendMessage (caption ++ "\n\n".toList ++ htmlEscape textLink)
    else if d.post_hint == "image".toList ∧ pyTruthy url then
      SendCall.sendPhoto (url.getD []) caption
    else SendCall.sendMessage (caption ++ "\n\n".toList ++ htmlEscape textLink)
  else
    let text :=
      if pyTruthy url ∧ ¬ pyStartsWith (url.getD []) "https://www.reddit.com".toList then
        caption ++ "\n\n".toList ++ htmlEscape (url.getD [])
      else caption
    SendCall.sendMessage text

/-- The persisted dedup state: the JSON object mapping `t3_…` ids to `True`
(`state` in the script), as an association list whose key lookup models dict
membership. -/
abbrev StateMap := List (PyStr × Bool)

/-- `post_id = d.get("name") or f"t3_{d.get('id')}"` (source line 328). -/
def post_id_of (d : Post) : PyStr :=
  if pyTruthy d.name then d.name.getD []
  else "t3_".toList ++ (match d.id with | some s => s | none => "None".toList)

/-- Everything `handle_post` does that the caller can observe: its boolean
return value, the state mapping afterwards, whether `save_state` ran, and
which delivery primitive (if any) it invoked. -/
structure HandleResult where
  sent : Bool
  state : StateMap
  saved : Bool
  call : Option SendCall
deriving DecidableEq

/-- Source `handle_post` (line 322), with the ranked comments `tc` the
caption composer would fetch and the outcome of the one delivery call passed
in.  `forcePostOne` is the `FORCE_POST_ONE` toggle, `mediaMode` the
`MEDIA_MODE` setting. -/
def handle_post (forcePostOne : Bool) (mediaMode : PyStr) (cfg : Config) (d : Post)
    (tc : List CommentRow) (st : StateMap) (outcome : SendOutcome) : HandleResult :=
  if d.stickied ∧ forcePostOne = false then ⟨false, st, false, none⟩
  else
    let post_id := post_id_of d
    if (List.lookup post_id st).isSome ∧ forcePostOne = false then ⟨false, st, false, none⟩
    else
      let cm := compose_caption cfg d tc
      let call := dispatchCall mediaMode d cm.1 cm.2
      let sent_ok := outcome = SendOutcome.ok
      if sent_ok then ⟨true, (post_id, true) :: st, true, some call⟩
      else ⟨false, st, false, some call⟩

/-- The startup-relevant part of the environment (source lines 17-31). -/
structure MainEnv where
  botToken : Option PyStr
  chatId : Option PyStr
  clientId : Option PyStr
  clientSecret : Option PyStr
  username : Option PyStr
  password : Option PyStr
  forceProxy : Bool
  pingOnStart : Bool
deriving DecidableEq

inductive NetTarget where
  | telegramPing
  | proxyFetch
  | redditAuth
deriving DecidableEq

/-- The first externally visible event of a run. -/
inductive StartEvent where
  | exitNonZero
  | networkCall (t : NetTarget)
deriving DecidableEq

/-- The first event `main` produces (source lines 398-417 plus the call
chain `fetch_listing → reddit_json → reddit_json_via_oauth → oauth_token`):
a missing `BOT_TOKEN`/`CHAT_ID` raises `SystemExit` first (line 399-400);
otherwise a `PING_ON_START` run's first network call is the Telegram ping
(line 404-409); otherwise `FORCE_PROXY` sends the listing fetch to the proxy
without ever consulting the Reddit credentials (lines 177-178); otherwise
`oauth_token` raises `SystemExit` when the Reddit credential quadruple is
incomplete (lines 107-108) — `SystemExit` is a `BaseException`, so the
`except Exception` fallback of `reddit_json` (line 181) does not catch it —
and when it is complete the first network call is the POST to the token
endpoint (line 110).  `load_state`/`save_state` touch only the local file
system. -/
def startup (e : MainEnv) : StartEvent :=
  if ¬ pyTruthy e.botToken ∨ ¬ pyTruthy e.chatId then StartEvent.exitNonZero
  else if e.pingOnStart then StartEvent.networkCall NetTarget.telegramPing
  else if e.forceProxy then StartEvent.networkCall NetTarget.proxyFetch
  else if ¬ (pyTruthy e.clientId ∧ pyTruthy e.clientSecret
      ∧ pyTruthy e.username ∧ pyTruthy e.password) then StartEvent.exitNonZero
  else StartEvent.networkCall NetTarget.redditAuth

/-! ## Shared lemmas -/

lemma pyRstrip_length_le (l : PyStr) : (pyRstrip l).length ≤ l.length := by
  unfold pyRstrip
  calc ((l.reverse.dropWhile pyIsSpace).reverse).length
      = (l.reverse.dropWhile pyIsSpace).length := List.length_reverse _
    _ ≤ l.reverse.length := (List.dropWhile_sublist _).length_le
    _ = l.length := List.length_reverse _

/-- The length bound of `truncate` for a positive ceiling. -/
lemma truncate_length_le (s : PyStr) (n : Int) (hn : 1 ≤ n) :
    ((truncate s n).length : Int) ≤ n := by
  unfold truncate
  dsimp only
  split
  · assumption
  · rename_i h
    have h1 : (pySlice (collapse_ws s) (n - 1)).length ≤ (n - 1).toNat := by
      unfold pySlice
      split
      · exact List.length_take_le _ _
      · omega
    have h2 := pyRstrip_length_le (pySlice (collapse_ws s) (n - 1))
    simp only [List.length_append, List.length_cons, List.length_nil]
    omega

/-! ## C3: truncate round-trip -/

/-- C3 counterexample: the claim says a too-long input yields a string of
length exactly `n`, but `truncate` right-strips the cut prefix before
appending the ellipsis: `truncate "ab cd" 4 = "ab…"`, of length 3. -/
theorem C3_counterexample :
    4 < ((collapse_ws "ab cd".toList).length : Int) ∧
    (truncate "ab cd".toList 4).length ≠ 4 := by
  decide

/-- C3 (amended): if the collapsed form of `s` fits in `n`, `truncate s n`
returns it unchanged; if it is longer than `n` (and `n ≥ 1`), the result has
length at most `n` (trailing whitespace in the cut prefix is stripped, so it
can be shorter) and ends in the ellipsis marker. -/
theorem C3_truncate_roundtrip :
    ∀ (s : PyStr) (n : Int),
      (((collapse_ws s).length : Int) ≤ n → truncate s n = collapse_ws s) ∧
      (1 ≤ n → n < ((collapse_ws s).length : Int) →
        ((truncate s n).length : Int) ≤ n ∧ ∃ pre, truncate s n = pre ++ ['…']) := by
  intro s n
  constructor
  · intro h
    unfold truncate
    dsimp only
    exact if_pos h
  · intro h1 h2
    refine ⟨truncate_length_le s n h1, ?_⟩
    unfold truncate
    dsimp only
    rw [if_neg (by omega)]
    exact ⟨_, rfl⟩

theorem C3_witness :
    truncate "hello".toList 10 = collapse_ws "hello".toList ∧
    ((truncate "ab cd".toList 4).length : Int) ≤ 4 ∧
    (∃ pre, truncate "ab cd".toList 4 = pre ++ ['…']) := by
  refine ⟨(C3_truncate_roundtrip "hello".toList 10).1 (by decide), ?_⟩
  have h := (C3_truncate_roundtrip "ab cd".toList 4).2 (by decide) (by decide)
  exact ⟨h.1, h.2⟩

/-! ## C10: truncate length safety -/

/-- C10: for `max_len ≥ 1` the result of `truncate` never exceeds `max_len`;
at `max_len = 0` the bound fails, since a non-empty collapsed input still
produces a non-empty result (the ellipsis is appended after a cut to
`max_len - 1 = -1`, i.e. `t[:-1]`). -/
theorem C10_truncate_safety :
    (∀ (s : PyStr) (n : Int), 1 ≤ n → ((truncate s n).length : Int) ≤ n) ∧
    (∀ s : PyStr, collapse_ws s ≠ [] → 0 < (truncate s 0).length) := by
  constructor
  · exact fun s n hn => truncate_length_le s n hn
  · intro s hne
    unfold truncate
    dsimp only
    split
    · rename_i h
      exact absurd (List.length_eq_zero.mp (by omega)) hne
    · simp

theorem C10_witness :
    ((truncate "abcdef".toList 3).length : Int) ≤ 3 ∧
    0 < (truncate "ab".toList 0).length :=
  ⟨C10_truncate_safety.1 "abcdef".toList 3 (by norm_num),
   C10_truncate_safety.2 "ab".toList (by decide)⟩

/-! ## C1: compose_caption never exceeds the hard limit -/

lemma hard_limit_of_pos (d : Post) : 1 ≤ hard_limit_of d := by
  unfold hard_limit_of TG_CAPTION_LIMIT TG_MESSAGE_LIMIT
  split <;> omega

/-- A media-classified gallery post whose title survives intact into a base
text longer than the 1024-character caption budget, with the cut falling on
a space: the defensive truncation right-strips before appending the
ellipsis. -/
def cPostC1 : Post :=
  { core := ⟨none, none, none, none, none⟩
    title := pyJoin [' '] (List.replicate 530 ['a'])
    permalink := []
    id := none
    name := none
    post_hint := []
    url_overridden_by_dest := none
    url := none
    is_video := false
    is_gallery := true
    stickied := false
    crosspost_parent_list := [] }

def cCfgC1 : Config := ⟨2000, 600, 220⟩

set_option maxRecDepth 40000 in
set_option maxHeartbeats 4000000 in
/-- C1 counterexample: on this media item the assembled text exceeds the
1024-character limit, yet the returned text does not have the length
1024 = (hardLimit − 1) + 1 that a plain cut-and-append-ellipsis would give:
the cut prefix is right-stripped first. -/
theorem C1_counterexample :
    TG_CAPTION_LIMIT < (assembled_of cCfgC1 cPostC1 []).length ∧
    is_media_post cPostC1 = true ∧
    (compose_caption cCfgC1 cPostC1 []).1.length ≠ TG_CAPTION_LIMIT := by
  decide

/-- C1 (amended): the composed text never exceeds the hard limit selected
for the item (1024 when media-classified, else 4096); when the assembled
text exceeds that limit, it is cut to `hardLimit − 1` characters, the cut
prefix is stripped of trailing whitespace, and an ellipsis is appended (so
the final length is at most, not exactly, the limit). -/
theorem C1_compose_caption_budget :
    ∀ (cfg : Config) (d : Post) (tc : List CommentRow),
      (compose_caption cfg d tc).1.length ≤ hard_limit_of d ∧
      (compose_caption cfg d tc).1 =
        (if hard_limit_of d < (assembled_of cfg d tc).length
         then pyRstrip ((assembled_of cfg d tc).take (hard_limit_of d - 1)) ++ ['…']
         else assembled_of cfg d tc) := by
  intro cfg d tc
  refine ⟨?_, ?_⟩
  case refine_2 =>
    unfold compose_caption
    dsimp only
  unfold compose_caption
  dsimp only
  split
  · have h1 : ((assembled_of cfg d tc).take (hard_limit_of d - 1)).length
        ≤ hard_limit_of d - 1 := List.length_take_le _ _
    have h2 := pyRstrip_length_le ((assembled_of cfg d tc).take (hard_limit_of d - 1))
    have h3 := hard_limit_of_pos d
    simp only [List.length_append, List.length_cons, List.length_nil]
    omega
  · omega

/-! ## C2: comments block is all-or-none -/

lemma sep_len_eq : sep_len = 10 := by decide

lemma sep8_length : sep8.length = 8 := by decide

lemma max0_pos_eq (v : Int) (h : 0 < max 0 v) : max 0 v = v := by
  rcases le_or_lt v 0 with hv | hv
  · rw [max_eq_left hv] at h
    omega
  · exact max_eq_right hv.le

lemma escChar_ne_nil (ch : Char) : escChar ch ≠ [] := by
  unfold escChar
  split
  · decide
  · split
    · decide
    · split
      · decide
      · split
        · decide
        · split
          · decide
          · simp

lemma htmlEscape_ne_nil (s : PyStr) (h : s ≠ []) : htmlEscape s ≠ [] := by
  cases s with
  | nil => exact absurd rfl h
  | cons c t =>
    unfold htmlEscape
    rw [List.map_cons, List.flatten_cons]
    intro heq
    exact escChar_ne_nil c (List.append_eq_nil.mp heq).1

lemma pyJoin_cons_of_ne_nil (sep : PyStr) (p : PyStr) (ps : List PyStr) (h : ps ≠ []) :
    pyJoin sep (p :: ps) = p ++ sep ++ pyJoin sep ps := by
  cases ps with
  | nil => exact absurd rfl h
  | cons q r => rfl

/-- Length of a newline-join: one separator character between consecutive
parts. -/
lemma pyJoin_char_length (c : Char) :
    ∀ (parts : List PyStr), parts ≠ [] →
      (pyJoin [c] parts).length + 1 = (parts.map List.length).sum + parts.length := by
  intro parts
  induction parts with
  | nil => intro h; exact absurd rfl h
  | cons p ps ih =>
    intro _
    cases ps with
    | nil => simp [pyJoin]
    | cons q r =>
      have h := ih (by simp)
      rw [pyJoin_cons_of_ne_nil [c] p (q :: r) (by simp)]
      simp only [List.length_append, List.map_cons, List.sum_cons,
        List.length_cons, List.length_nil] at *
      omega

lemma pyJoin_append (sep : PyStr) :
    ∀ (xs ys : List PyStr), xs ≠ [] → ys ≠ [] →
      pyJoin sep (xs ++ ys) = pyJoin sep xs ++ sep ++ pyJoin sep ys := by
  intro xs
  induction xs with
  | nil => intro ys h _; exact absurd rfl h
  | cons p ps ih =>
    intro ys _ hy
    cases ps with
    | nil =>
      cases ys with
      | nil => exact absurd rfl hy
      | cons y t => simp [pyJoin]
    | cons q r =>
      have h := ih ys (by simp) hy
      rw [List.cons_append, pyJoin_cons_of_ne_nil sep p ((q :: r) ++ ys) (by simp),
        pyJoin_cons_of_ne_nil sep p (q :: r) (by simp), h]
      simp [List.append_assoc]

lemma totalLen_eq (ls : List PyStr) :
    totalLen ls = ((ls.map List.length).sum : Int) + (ls.length : Int) := by
  unfold totalLen
  induction ls with
  | nil => simp
  | cons p ps ih =>
    simp only [List.map_cons, List.sum_cons, List.length_cons] at *
    push_cast at *
    omega

/-- Full characterisation of the shrink-and-retry loop: either no per-limit
in the shrink sequence fits within the fuel and the loop yields `[]`, or the
loop yields the rendering of all comments at the first fitting per-limit. -/
lemma fitLoop_spec (tc : List CommentRow) (b : Int) :
    ∀ (n : Nat) (per : Nat),
      (fitLoop tc n per b = [] ∧
        ∀ k, k < n → ¬ totalLen (tc.map (renderCommentLine (shrinkPer^[k] per))) ≤ b) ∨
      (∃ k, k < n ∧
        fitLoop tc n per b = tc.map (renderCommentLine (shrinkPer^[k] per)) ∧
        totalLen (tc.map (renderCommentLine (shrinkPer^[k] per))) ≤ b ∧
        ∀ j, j < k → ¬ totalLen (tc.map (renderCommentLine (shrinkPer^[j] per))) ≤ b) := by
  intro n
  induction n with
  | zero => intro per; exact Or.inl ⟨rfl, by omega⟩
  | succ m ih =>
    intro per
    by_cases h : totalLen (tc.map (renderCommentLine per)) ≤ b
    · right
      refine ⟨0, by omega, ?_, ?_, by omega⟩
      · unfold fitLoop
        dsimp only
        rw [if_pos h, Function.iterate_zero_apply]
      · rw [Function.iterate_zero_apply]
        exact h
    · rcases ih (shrinkPer per) with ⟨heq, hall⟩ | ⟨k, hk, heq, hfit, hmin⟩
      · left
        refine ⟨?_, ?_⟩
        · unfold fitLoop
          dsimp only
          rw [if_neg h]
          exact heq
        · intro k hk
          cases k with
          | zero => rw [Function.iterate_zero_apply]; exact h
          | succ j => rw [Function.iterate_succ_apply]; exact hall j (by omega)
      · right
        refine ⟨k + 1, by omega, ?_, ?_, ?_⟩
        · unfold fitLoop
          dsimp only
          rw [if_neg h, Function.iterate_succ_apply]
          exact heq
        · rw [Function.iterate_succ_apply]
          exact hfit
        · intro j hj
          cases j with
          | zero => rw [Function.iterate_zero_apply]; exact h
          | succ i => rw [Function.iterate_succ_apply]; exact hmin i (by omega)

/-- A non-empty comments block means the source guards held and the block is
the output of the shrink loop on the post-separator budget. -/
lemma comment_blocks_ne_nil_elim (cfg : Config) (d : Post) (tc : List CommentRow)
    (h : comment_blocks_of cfg d tc ≠ []) :
    tc ≠ [] ∧ 0 < budget1_of cfg d ∧ sep_len < budget1_of cfg d ∧
      comment_blocks_of cfg d tc
        = fitLoop tc 20 cfg.commentLimit (budget1_of cfg d - sep_len) := by
  unfold comment_blocks_of at *
  dsimp only at *
  by_cases h1 : tc ≠ [] ∧ 0 < budget1_of cfg d
  · rw [if_pos h1] at *
    by_cases h2 : sep_len < budget1_of cfg d
    · rw [if_pos h2] at *
      exact ⟨h1.1, h1.2, h2, rfl⟩
    · rw [if_neg h2] at h
      exact absurd rfl h
  · rw [if_neg h1] at h
    exact absurd rfl h

lemma body_ne_nil_of_bb (cfg : Config) (d : Post) (h : body_block_of cfg d ≠ []) :
    selftext_excerpt d cfg.bodyLimit ≠ [] := by
  unfold body_block_of at h
  dsimp only at h
  by_cases hc : selftext_excerpt d cfg.bodyLimit ≠ [] ∧ 0 < budget0_of cfg d
  · exact hc.1
  · rw [if_neg hc] at h
    exact absurd rfl h

lemma bb_ne_nil (cfg : Config) (d : Post) (hbody : selftext_excerpt d cfg.bodyLimit ≠ [])
    (hB : 0 < budget0_of cfg d) : body_block_of cfg d ≠ [] := by
  unfold body_block_of
  dsimp only
  rw [if_pos ⟨hbody, hB⟩]
  apply htmlEscape_ne_nil
  intro htake
  rcases List.take_eq_nil_iff.mp htake with h0 | h0
  · have h1 : 0 < (selftext_excerpt d cfg.bodyLimit).length := List.length_pos.mpr hbody
    omega
  · exact hbody h0

lemma base_text_length_body (cfg : Config) (d : Post)
    (h : selftext_excerpt d cfg.bodyLimit ≠ []) :
    (base_text_of cfg d).length
      = (title_block_of cfg d).length + (link_line_of d).length + 10 := by
  unfold base_text_of
  rw [if_pos h]
  have hj := pyJoin_char_length '\n' [title_block_of cfg d, sep8, link_line_of d] (by simp)
  have h8 := sep8_length
  simp only [List.map_cons, List.map_nil, List.sum_cons, List.sum_nil,
    List.length_cons, List.length_nil, List.cons_append, List.nil_append] at *
  omega

lemma base_text_length_nobody (cfg : Config) (d : Post)
    (h : selftext_excerpt d cfg.bodyLimit = []) :
    (base_text_of cfg d).length
      = (title_block_of cfg d).length + (link_line_of d).length + 1 := by
  unfold base_text_of
  rw [if_neg (by simp [h])]
  have hj := pyJoin_char_length '\n' [title_block_of cfg d, link_line_of d] (by simp)
  simp only [List.map_cons, List.map_nil, List.sum_cons, List.sum_nil,
    List.length_cons, List.length_nil, List.cons_append, List.nil_append] at *
  omega

/-- C2: the comments block is attempted only when the budget left after
skeleton and body exceeds one separator's length; the loop renders all
ranked comments at the per-comment limit obtained by at most 19 shrinks of
factor 0.8 (floor 60) from the starting limit, accepting the first fitting
rendering and dropping the block entirely when none of the 20 iterations
fits; when the block is kept, the final text is the untruncated assembly and
contains the newline-join of every rendered comment line as one contiguous
segment — all comments or none, never a proper subset. -/
theorem C2_comments_all_or_none :
    ∀ (cfg : Config) (d : Post) (tc : List CommentRow),
      ((tc = [] ∨ budget1_of cfg d ≤ sep_len) → comment_blocks_of cfg d tc = []) ∧
      (comment_blocks_of cfg d tc = [] ∨
        ∃ k, k < 20 ∧
          comment_blocks_of cfg d tc
            = tc.map (renderCommentLine (shrinkPer^[k] cfg.commentLimit)) ∧
          totalLen (tc.map (renderCommentLine (shrinkPer^[k] cfg.commentLimit)))
            ≤ budget1_of cfg d - sep_len ∧
          (∀ j, j < k →
            ¬ totalLen (tc.map (renderCommentLine (shrinkPer^[j] cfg.commentLimit)))
              ≤ budget1_of cfg d - sep_len)) ∧
      (comment_blocks_of cfg d tc ≠ [] →
        (compose_caption cfg d tc).1 = assembled_of cfg d tc ∧
        ∃ pre suf, (compose_caption cfg d tc).1
          = pre ++ pyJoin ['\n'] (comment_blocks_of cfg d tc) ++ suf) := by
  intro cfg d tc
  refine ⟨?_, ?_, ?_⟩
  · intro h
    unfold comment_blocks_of
    dsimp only
    rcases h with h | h
    · rw [if_neg (by simp [h])]
    · by_cases hg : tc ≠ [] ∧ 0 < budget1_of cfg d
      · rw [if_pos hg, if_neg (by omega)]
      · rw [if_neg hg]
  · by_cases hb : comment_blocks_of cfg d tc = []
    · exact Or.inl hb
    · right
      obtain ⟨htc, h1, h2, heq⟩ := comment_blocks_ne_nil_elim cfg d tc hb
      rcases fitLoop_spec tc (budget1_of cfg d - sep_len) 20 cfg.commentLimit with
        ⟨hnil, _⟩ | ⟨k, hk, hfl, hfit, hmin⟩
      · rw [heq, hnil] at hb
        exact absurd rfl hb
      · exact ⟨k, hk, by rw [heq, hfl], hfit, hmin⟩
  · intro hb
    obtain ⟨htc, h1, h2, heq⟩ := comment_blocks_ne_nil_elim cfg d tc hb
    have hfitB : totalLen (comment_blocks_of cfg d tc) ≤ budget1_of cfg d - sep_len := by
      rcases fitLoop_spec tc (budget1_of cfg d - sep_len) 20 cfg.commentLimit with
        ⟨hnil, _⟩ | ⟨k, hk, hfl, hfit, hmin⟩
      · rw [heq, hnil] at hb
        exact absurd rfl hb
      · rw [heq, hfl]
        exact hfit
    have hB1 : budget1_of cfg d
        = budget0_of cfg d - ((body_block_of cfg d).length : Int) := rfl
    have hB0pos : 0 < budget0_of cfg d := by
      have hnn : (0 : Int) ≤ ((body_block_of cfg d).length : Int) := by positivity
      omega
    have hB0eq : budget0_of cfg d
        = (hard_limit_of d : Int) - ((base_text_of cfg d).length : Int) - 1 := by
      unfold budget0_of at hB0pos ⊢
      exact max0_pos_eq _ hB0pos
    have hsep10 : sep_len = 10 := sep_len_eq
    have hT := totalLen_eq (comment_blocks_of cfg d tc)
    have hlt : (assembled_of cfg d tc).length < hard_limit_of d := by
      by_cases hbb : body_block_of cfg d = []
      · have hbody : selftext_excerpt d cfg.bodyLimit = [] := by
          by_contra hbody
          exact bb_ne_nil cfg d hbody hB0pos hbb
        have hbase := base_text_length_nobody cfg d hbody
        have hout : out_parts_of cfg d tc
            = [title_block_of cfg d, sep8] ++ comment_blocks_of cfg d tc
                ++ [link_line_of d] := by
          unfold out_parts_of
          rw [if_neg (by simp [hbb]), if_pos hb]
          simp
        have hA : (assembled_of cfg d tc).length + 1
            = ((out_parts_of cfg d tc).map List.length).sum
              + (out_parts_of cfg d tc).length := by
          unfold assembled_of
          exact pyJoin_char_length '\n' _ (by rw [hout]; simp)
        rw [hout] at hA
        have h8 := sep8_length
        simp only [List.map_append, List.map_cons, List.map_nil, List.sum_append,
          List.sum_cons, List.sum_nil, List.length_append, List.length_cons,
          List.length_nil] at hA
        omega
      · have hbody : selftext_excerpt d cfg.bodyLimit ≠ [] := body_ne_nil_of_bb cfg d hbb
        have hbase := base_text_length_body cfg d hbody
        have hout : out_parts_of cfg d tc
            = [title_block_of cfg d, sep8, body_block_of cfg d, sep8]
                ++ comment_blocks_of cfg d tc ++ [link_line_of d] := by
          unfold out_parts_of
          rw [if_pos hbb, if_pos hb]
          simp
        have hA : (assembled_of cfg d tc).length + 1
            = ((out_parts_of cfg d tc).map List.length).sum
              + (out_parts_of cfg d tc).length := by
          unfold assembled_of
          exact pyJoin_char_length '\n' _ (by rw [hout]; simp)
        rw [hout] at hA
        have h8 := sep8_length
        simp only [List.map_append, List.map_cons, List.map_nil, List.sum_append,
          List.sum_cons, List.sum_nil, List.length_append, List.length_cons,
          List.length_nil] at hA
        omega
    have hcomp : (compose_caption cfg d tc).1 = assembled_of cfg d tc := by
      unfold compose_caption
      dsimp only
      rw [if_neg (by omega)]
    refine ⟨hcomp, ?_⟩
    rw [hcomp]
    by_cases hbb : body_block_of cfg d = []
    · have hout : out_parts_of cfg d tc
          = [title_block_of cfg d, sep8] ++ comment_blocks_of cfg d tc
              ++ [link_line_of d] := by
        unfold out_parts_of
        rw [if_neg (by simp [hbb]), if_pos hb]
        simp
      refine ⟨pyJoin ['\n'] [title_block_of cfg d, sep8] ++ ['\n'],
        ['\n'] ++ link_line_of d, ?_⟩
      unfold assembled_of
      rw [hout, List.append_assoc,
        pyJoin_append ['\n'] [title_block_of cfg d, sep8]
          (comment_blocks_of cfg d tc ++ [link_line_of d]) (by simp)
          (by simp),
        pyJoin_append ['\n'] (comment_blocks_of cfg d tc) [link_line_of d] hb (by simp)]
      show _ ++ _ ++ (_ ++ _ ++ pyJoin ['\n'] [link_line_of d]) = _
      simp [pyJoin, List.append_assoc]
    · have hout : out_parts_of cfg d tc
          = [title_block_of cfg d, sep8, body_block_of cfg d, sep8]
              ++ comment_blocks_of cfg d tc ++ [link_line_of d] := by
        unfold out_parts_of
        rw [if_pos hbb, if_pos hb]
        simp
      refine ⟨pyJoin ['\n'] [title_block_of cfg d, sep8, body_block_of cfg d, sep8]
          ++ ['\n'], ['\n'] ++ link_line_of d, ?_⟩
      unfold assembled_of
      rw [hout, List.append_assoc,
        pyJoin_append ['\n'] [title_block_of cfg d, sep8, body_block_of cfg d, sep8]
          (comment_blocks_of cfg d tc ++ [link_line_of d]) (by simp)
          (by simp),
        pyJoin_append ['\n'] (comment_blocks_of cfg d tc) [link_line_of d] hb (by simp)]
      show _ ++ _ ++ (_ ++ _ ++ pyJoin ['\n'] [link_line_of d]) = _
      simp [pyJoin, List.append_assoc]

def cPostC2 : Post :=
  { core := ⟨none, none, none, none, none⟩
    title := "Game thread".toList
    permalink := "/r/nba/abc".toList
    id := none
    name := none
    post_hint := []
    url_overridden_by_dest := none
    url := none
    is_video := false
    is_gallery := false
    stickied := false
    crosspost_parent_list := [] }

def cCfgC2 : Config := ⟨200, 600, 220⟩

def cTcC2 : List CommentRow := [⟨"alice".toList, 5, "nice play".toList⟩]

theorem C2_witness :
    comment_blocks_of cCfgC2 cPostC2 cTcC2 ≠ [] ∧
    (compose_caption cCfgC2 cPostC2 cTcC2).1 = assembled_of cCfgC2 cPostC2 cTcC2 ∧
    (∃ pre suf, (compose_caption cCfgC2 cPostC2 cTcC2).1
      = pre ++ pyJoin ['\n'] (comment_blocks_of cCfgC2 cPostC2 cTcC2) ++ suf) ∧
    comment_blocks_of cCfgC2 cPostC2 [] = [] := by
  have h := C2_comments_all_or_none cCfgC2 cPostC2 cTcC2
  have h0 := C2_comments_all_or_none cCfgC2 cPostC2 []
  exact ⟨by decide, (h.2.2 (by decide)).1, (h.2.2 (by decide)).2,
    h0.1 (Or.inl rfl)⟩

/-! ## C4: comment filtering, stable descending ordering, truncation -/

lemma mem_insertDesc (x a : CommentRow) :
    ∀ l : List CommentRow, a ∈ insertDesc x l ↔ a = x ∨ a ∈ l := by
  intro l
  induction l with
  | nil => simp [insertDesc]
  | cons y ys ih =>
    unfold insertDesc
    split
    · simp [List.mem_cons]
    · simp only [List.mem_cons, ih]
      tauto

lemma insertDesc_sorted (x : CommentRow) :
    ∀ l : List CommentRow,
      List.Pairwise (fun a b => b.score ≤ a.score) l →
      List.Pairwise (fun a b => b.score ≤ a.score) (insertDesc x l) := by
  intro l
  induction l with
  | nil => simp [insertDesc]
  | cons y ys ih =>
    intro h
    rw [List.pairwise_cons] at h
    unfold insertDesc
    split
    · rename_i hcond
      rw [List.pairwise_cons]
      refine ⟨?_, List.pairwise_cons.mpr h⟩
      intro b hb
      rcases List.mem_cons.mp hb with rfl | hbys
      · omega
      · have := h.1 b hbys
        omega
    · rename_i hcond
      push_neg at hcond
      rw [List.pairwise_cons]
      refine ⟨?_, ih h.2⟩
      intro b hb
      rcases (mem_insertDesc x b ys).mp hb with rfl | hbys
      · omega
      · exact h.1 b hbys

lemma insertDesc_filter_eq (x : CommentRow) (s : Int) (hx : x.score = s) :
    ∀ l : List CommentRow,
      (insertDesc x l).filter (fun c => decide (c.score = s))
        = x :: l.filter (fun c => decide (c.score = s)) := by
  intro l
  induction l with
  | nil => simp [insertDesc, List.filter_cons, hx]
  | cons y ys ih =>
    unfold insertDesc
    split
    · simp [List.filter_cons, hx]
    · rename_i hcond
      push_neg at hcond
      have hy : ¬ y.score = s := by omega
      simp [List.filter_cons, hy, ih]

lemma insertDesc_filter_ne (x : CommentRow) (s : Int) (hx : ¬ x.score = s) :
    ∀ l : List CommentRow,
      (insertDesc x l).filter (fun c => decide (c.score = s))
        = l.filter (fun c => decide (c.score = s)) := by
  intro l
  induction l with
  | nil => simp [insertDesc, List.filter_cons, hx]
  | cons y ys ih =>
    unfold insertDesc
    split
    · simp [List.filter_cons, hx]
    · simp [List.filter_cons, ih]

lemma sortDesc_sorted :
    ∀ l : List CommentRow,
      List.Pairwise (fun a b => b.score ≤ a.score) (sortDesc l) := by
  intro l
  induction l with
  | nil => simp [sortDesc]
  | cons x xs ih => exact insertDesc_sorted x (sortDesc xs) ih

/-- Stability of the descending sort: for every score value, the rows holding
that score appear in the sorted output in exactly their original order. -/
lemma sortDesc_filter (s : Int) :
    ∀ l : List CommentRow,
      (sortDesc l).filter (fun c => decide (c.score = s))
        = l.filter (fun c => decide (c.score = s)) := by
  intro l
  induction l with
  | nil => rfl
  | cons x xs ih =>
    show (insertDesc x (sortDesc xs)).filter _ = _
    by_cases hx : x.score = s
    · rw [insertDesc_filter_eq x s hx, ih]
      simp [List.filter_cons, hx]
    · rw [insertDesc_filter_ne x s hx, ih]
      simp [List.filter_cons, hx]

/-- Inclusion characterisation of the filtering loop: a node survives iff it
is a reply-kind node, not stickied, not distinguished, not removed (by
category or placeholder body), and not authored by the automation account. -/
lemma commentRow_isSome_iff (c : RawComment) :
    (∃ row, commentRow c = some row) ↔
      (c.kind = "t1".toList ∧ c.stickied = false ∧ pyTruthy c.distinguished = false
        ∧ pyTruthy c.removed_by_category = false
        ∧ c.body.getD [] ≠ "[removed]".toList ∧ c.body.getD [] ≠ "[deleted]".toList
        ∧ effAuthor c ≠ "AutoModerator".toList) := by
  unfold commentRow
  dsimp only
  constructor
  · rintro ⟨row, hrow⟩
    split at hrow
    · exact absurd hrow (by simp)
    · rename_i h1
      split at hrow
      · exact absurd hrow (by simp)
      · rename_i h2
        split at hrow
        · exact absurd hrow (by simp)
        · rename_i h3
          split at hrow
          · exact absurd hrow (by simp)
          · rename_i h4
            push_neg at h1
            simp only [Bool.or_eq_true, not_or, Bool.not_eq_true, beq_iff_eq] at h2 h3
            exact ⟨h1, h2.1, h2.2, h3.1.1, h3.1.2, h3.2, h4⟩
  · rintro ⟨h1, h2, h3, h4, h5, h6, h7⟩
    refine ⟨⟨effAuthor c, c.score.getD 0, collapse_ws (c.body.getD [])⟩, ?_⟩
    rw [if_neg (by simp [h1]), if_neg (by simp [h2, h3]),
      if_neg (by
        simp only [Bool.or_eq_true, beq_iff_eq, not_or, Bool.not_eq_true]
        exact ⟨⟨h4, h5⟩, h6⟩),
      if_neg h7]

/-- The surviving rows carry the defaulted author, the defaulted score, and
a whitespace-collapsed body. -/
lemma commentRow_fields (c : RawComment) (row : CommentRow)
    (h : commentRow c = some row) :
    row.author = effAuthor c ∧ row.score = c.score.getD 0
      ∧ row.body = collapse_ws (c.body.getD []) := by
  unfold commentRow at h
  dsimp only at h
  split at h
  · exact absurd h (by simp)
  · split at h
    · exact absurd h (by simp)
    · split at h
      · exact absurd h (by simp)
      · split at h
        · exact absurd h (by simp)
        · cases h
          exact ⟨rfl, rfl, rfl⟩

/-- C4: `fetch_top_comments` keeps exactly the nodes passing the exclusion
filters, with collapsed bodies and defaulted author/score; the output is the
stable descending-by-score ordering of the survivors (ties keep original
order: for every score value the filtered subsequence is unchanged),
truncated to at most `count` entries. -/
theorem C4_fetch_top_comments_spec :
    ∀ (post_id36 : PyStr) (count : Int) (children : List RawComment),
      post_id36 ≠ [] → 0 < count →
      fetch_top_comments post_id36 count children
          = (sortDesc (children.filterMap commentRow)).take count.toNat ∧
      (fetch_top_comments post_id36 count children).length ≤ count.toNat ∧
      List.Pairwise (fun a b => b.score ≤ a.score)
        (fetch_top_comments post_id36 count children) ∧
      (∀ s : Int,
        (sortDesc (children.filterMap commentRow)).filter (fun c => decide (c.score = s))
          = (children.filterMap commentRow).filter (fun c => decide (c.score = s))) ∧
      (∀ c : RawComment,
        (∃ row, commentRow c = some row) ↔
          (c.kind = "t1".toList ∧ c.stickied = false ∧ pyTruthy c.distinguished = false
            ∧ pyTruthy c.removed_by_category = false
            ∧ c.body.getD [] ≠ "[removed]".toList ∧ c.body.getD [] ≠ "[deleted]".toList
            ∧ effAuthor c ≠ "AutoModerator".toList)) ∧
      (∀ (c : RawComment) (row : CommentRow), commentRow c = some row →
        row.author = effAuthor c ∧ row.score = c.score.getD 0
          ∧ row.body = collapse_ws (c.body.getD [])) := by
  intro post_id36 count children h1 h2
  have hg : ¬ (post_id36 = [] ∨ count ≤ 0) := by
    rintro (h | h)
    · exact h1 h
    · omega
  have heq : fetch_top_comments post_id36 count children
      = (sortDesc (children.filterMap commentRow)).take count.toNat := by
    unfold fetch_top_comments
    rw [if_neg hg]
    congr 1
    omega
  refine ⟨heq, ?_, ?_, fun s => sortDesc_filter s _, fun c => commentRow_isSome_iff c,
    fun c row h => commentRow_fields c row h⟩
  · rw [heq]
    exact List.length_take_le _ _
  · rw [heq]
    exact List.Pairwise.sublist (List.take_sublist _ _) (sortDesc_sorted _)

def cChildrenC4 : List RawComment :=
  [⟨"t1".toList, false, none, none, some "b one".toList, some "u1".toList, some 3⟩,
   ⟨"t1".toList, false, none, none, some "b two".toList, some "u2".toList, some 7⟩,
   ⟨"t1".toList, false, none, none, some "b three".toList, some "u3".toList, some 3⟩,
   ⟨"more".toList, false, none, none, some "x".toList, some "u4".toList, some 9⟩,
   ⟨"t1".toList, true, none, none, some "x".toList, some "u5".toList, some 9⟩,
   ⟨"t1".toList, false, some "moderator".toList, none, some "x".toList, some "u6".toList, some 9⟩,
   ⟨"t1".toList, false, none, none, some "[removed]".toList, some "u7".toList, some 9⟩,
   ⟨"t1".toList, false, none, none, some "x".toList, some "AutoModerator".toList, some 9⟩]

theorem C4_witness :
    fetch_top_comments "p1".toList 2 cChildrenC4
        = (sortDesc (cChildrenC4.filterMap commentRow)).take (2 : Int).toNat ∧
    (fetch_top_comments "p1".toList 2 cChildrenC4).length ≤ (2 : Int).toNat ∧
    List.Pairwise (fun a b => b.score ≤ a.score)
      (fetch_top_comments "p1".toList 2 cChildrenC4) ∧
    (sortDesc (cChildrenC4.filterMap commentRow)).filter (fun c => decide (c.score = 3))
      = (cChildrenC4.filterMap commentRow).filter (fun c => decide (c.score = 3)) := by
  have h := C4_fetch_top_comments_spec "p1".toList 2 cChildrenC4 (by decide) (by decide)
  exact ⟨h.1, h.2.1, h.2.2.1, h.2.2.2.1 3⟩

/-! ## C5: OAuth retry policy -/

/-- The statuses the source treats as transient on the OAuth path
(source line 154): 403, 429, and every 5xx. -/
def transientStatus (s : Nat) : Prop :=
  s = 403 ∨ s = 429 ∨ (500 ≤ s ∧ s < 600)

instance (s : Nat) : Decidable (transientStatus s) := by
  unfold transientStatus
  infer_instance

/-- C5 counterexample: a 403 does not abort the primary path — the request
is retried with the 1.5 back-off and the second attempt's 200 is returned.
The claim says every 4xx other than 429 (and the 401 refresh) aborts
immediately, which would make the outcome `error 403` with no sleeps. -/
theorem C5_counterexample :
    (reddit_json_via_oauth [403, 200, 200]).outcome = FetchOutcome.ok 200 ∧
    (reddit_json_via_oauth [403, 200, 200]).sleeps = [(3 / 2 : ℚ)] ∧
    (reddit_json_via_oauth [403, 200, 200]).outcome ≠ FetchOutcome.error 403 := by
  refine ⟨by decide, rfl, by decide⟩

lemma oauthLoop_success (last : Nat) (b : ℚ) (s : Nat) (rest : List Nat) (h : s < 400) :
    oauthLoop last b (s :: rest) = ⟨[], 0, FetchOutcome.ok s⟩ := by
  rw [oauthLoop.eq_2]
  rw [if_pos h]

lemma oauthLoop_transient (last : Nat) (b : ℚ) (s : Nat) (rest : List Nat)
    (h : transientStatus s) :
    oauthLoop last b (s :: rest)
      = ⟨b :: (oauthLoop s (b * (9 / 5)) rest).sleeps,
         (oauthLoop s (b * (9 / 5)) rest).refreshes,
         (oauthLoop s (b * (9 / 5)) rest).outcome⟩ := by
  unfold transientStatus at h
  rw [oauthLoop.eq_2]
  rw [if_neg (by omega), if_neg (by omega), if_pos h]

lemma oauthLoop_401 (last : Nat) (b : ℚ) (rest : List Nat) :
    oauthLoop last b (401 :: rest)
      = ⟨(oauthLoop 401 b rest).sleeps, (oauthLoop 401 b rest).refreshes + 1,
         (oauthLoop 401 b rest).outcome⟩ := by
  rw [oauthLoop.eq_2]
  rw [if_neg (by omega), if_pos rfl]

lemma oauthLoop_other4xx (last : Nat) (b : ℚ) (s : Nat) (rest : List Nat)
    (h1 : 400 ≤ s) (h2 : s < 500) (h3 : s ≠ 401) (h4 : s ≠ 403) (h5 : s ≠ 429) :
    oauthLoop last b (s :: rest) = ⟨[], 0, FetchOutcome.error s⟩ := by
  rw [oauthLoop.eq_2]
  rw [if_neg (by omega), if_neg h3, if_neg (by omega)]

/-- C5 (amended): on the primary OAuth read path a 429, a 403, or any 5xx is
transient — the request is retried within the 3-attempt budget, sleeping the
current back-off (1.5 initially, multiplied by 1.8 per transient attempt); a
401 refreshes the credential and retries without sleeping; any other 4xx
(400, 404, ...) aborts the primary path at once; three transient responses
exhaust the budget after sleeps 1.5, 1.5·1.8, 1.5·1.8·1.8 and raise the last
status. -/
theorem C5_oauth_retry_policy :
    ∀ (last : Nat) (b : ℚ) (s : Nat) (rest : List Nat),
      (s < 400 → oauthLoop last b (s :: rest) = ⟨[], 0, FetchOutcome.ok s⟩) ∧
      (transientStatus s →
        oauthLoop last b (s :: rest)
          = ⟨b :: (oauthLoop s (b * (9 / 5)) rest).sleeps,
             (oauthLoop s (b * (9 / 5)) rest).refreshes,
             (oauthLoop s (b * (9 / 5)) rest).outcome⟩) ∧
      (oauthLoop last b (401 :: rest)
        = ⟨(oauthLoop 401 b rest).sleeps, (oauthLoop 401 b rest).refreshes + 1,
           (oauthLoop 401 b rest).outcome⟩) ∧
      (400 ≤ s → s < 500 → s ≠ 401 → s ≠ 403 → s ≠ 429 →
        oauthLoop last b (s :: rest) = ⟨[], 0, FetchOutcome.error s⟩) ∧
      (∀ s1 s2 s3 : Nat, transientStatus s1 → transientStatus s2 → transientStatus s3 →
        reddit_json_via_oauth [s1, s2, s3]
          = ⟨[3 / 2, 3 / 2 * (9 / 5), 3 / 2 * (9 / 5) * (9 / 5)], 0,
             FetchOutcome.error s3⟩) := by
  intro last b s rest
  refine ⟨oauthLoop_success last b s rest, oauthLoop_transient last b s rest,
    oauthLoop_401 last b rest, oauthLoop_other4xx last b s rest, ?_⟩
  intro s1 s2 s3 h1 h2 h3
  unfold reddit_json_via_oauth
  rw [oauthLoop_transient 0 (3 / 2) s1 [s2, s3] h1,
    oauthLoop_transient s1 (3 / 2 * (9 / 5)) s2 [s3] h2,
    oauthLoop_transient s2 (3 / 2 * (9 / 5) * (9 / 5)) s3 [] h3]
  rfl

theorem C5_witness :
    oauthLoop 0 (3 / 2 : ℚ) (429 :: [200, 200]) = ⟨[3 / 2], 0, FetchOutcome.ok 200⟩ ∧
    oauthLoop 0 (3 / 2 : ℚ) (401 :: [200]) = ⟨[], 1, FetchOutcome.ok 200⟩ ∧
    oauthLoop 0 (3 / 2 : ℚ) (404 :: [200]) = ⟨[], 0, FetchOutcome.error 404⟩ ∧
    reddit_json_via_oauth [500, 599, 429]
      = ⟨[3 / 2, 3 / 2 * (9 / 5), 3 / 2 * (9 / 5) * (9 / 5)], 0,
         FetchOutcome.error 429⟩ := by
  have h1 := (C5_oauth_retry_policy 0 (3 / 2) 429 [200, 200]).2.1 (by decide)
  have h2 := (C5_oauth_retry_policy 0 (3 / 2) 401 [200]).2.2.1
  have h3 := (C5_oauth_retry_policy 0 (3 / 2) 404 [200]).2.2.2.1
    (by omega) (by omega) (by omega) (by omega) (by omega)
  have h4 := (C5_oauth_retry_policy 0 (3 / 2) 0 []).2.2.2.2 500 599 429
    (by decide) (by decide) (by decide)
  refine ⟨?_, ?_, h3, h4⟩
  · rw [h1]
    rfl
  · rw [h2]
    rfl

/-! ## C6, C7: handle_post state recording and skip logic -/

/-- C6: `handle_post` records the item id and persists the state exactly when
the delivery call it made succeeded; a not-OK response or a raised exception
leaves the state mapping untouched and unsaved, and the function returns
`False`. -/
theorem C6_handle_post_state :
    ∀ (fp : Bool) (mm : PyStr) (cfg : Config) (d : Post) (tc : List CommentRow)
      (st : StateMap) (outcome : SendOutcome),
      ((handle_post fp mm cfg d tc st outcome).saved = true ↔
        ((handle_post fp mm cfg d tc st outcome).call.isSome
          ∧ outcome = SendOutcome.ok)) ∧
      ((handle_post fp mm cfg d tc st outcome).call.isSome → outcome = SendOutcome.ok →
        (handle_post fp mm cfg d tc st outcome).sent = true ∧
        (handle_post fp mm cfg d tc st outcome).state = (post_id_of d, true) :: st ∧
        List.lookup (post_id_of d) (handle_post fp mm cfg d tc st outcome).state
          = some true) ∧
      (outcome ≠ SendOutcome.ok →
        (handle_post fp mm cfg d tc st outcome).state = st ∧
        (handle_post fp mm cfg d tc st outcome).saved = false ∧
        (handle_post fp mm cfg d tc st outcome).sent = false) := by
  intro fp mm cfg d tc st outcome
  unfold handle_post
  dsimp only
  split
  · exact ⟨by simp, by simp, fun _ => ⟨rfl, rfl, rfl⟩⟩
  · split
    · exact ⟨by simp, by simp, fun _ => ⟨rfl, rfl, rfl⟩⟩
    · split
      · rename_i hok
        refine ⟨by simp [hok], fun _ _ => ⟨rfl, rfl, ?_⟩, fun hne => absurd hok hne⟩
        simp [List.lookup]
      · rename_i hne
        exact ⟨by simp [hne], fun _ hok => absurd hok hne, fun _ => ⟨rfl, rfl, rfl⟩⟩

/-- C7: a stickied item, and an item whose id is already recorded, are both
skipped (return `False`, no delivery call, state untouched) unless the
`FORCE_POST_ONE` override is set; with the override set the delivery call is
always attempted, bypassing both skips. -/
theorem C7_handle_post_skip :
    ∀ (fp : Bool) (mm : PyStr) (cfg : Config) (d : Post) (tc : List CommentRow)
      (st : StateMap) (outcome : SendOutcome),
      (d.stickied = true → fp = false →
        handle_post fp mm cfg d tc st outcome = ⟨false, st, false, none⟩) ∧
      ((List.lookup (post_id_of d) st).isSome → fp = false →
        (handle_post fp mm cfg d tc st outcome).sent = false ∧
        (handle_post fp mm cfg d tc st outcome).state = st ∧
        (handle_post fp mm cfg d tc st outcome).call = none) ∧
      (fp = true → (handle_post fp mm cfg d tc st outcome).call.isSome) := by
  intro fp mm cfg d tc st outcome
  refine ⟨?_, ?_, ?_⟩
  · intro hs hf
    unfold handle_post
    rw [if_pos ⟨hs, hf⟩]
  · intro hl hf
    unfold handle_post
    dsimp only
    split
    · exact ⟨rfl, rfl, rfl⟩
    · rw [if_pos ⟨hl, hf⟩]
      exact ⟨rfl, rfl, rfl⟩
  · intro hf
    unfold handle_post
    dsimp only
    rw [if_neg (by simp [hf]), if_neg (by simp [hf])]
    split
    · simp
    · simp

def cPostC6 : Post :=
  { core := ⟨none, none, none, none, none⟩
    title := "Trade news".toList
    permalink := "/r/nba/xyz".toList
    id := some "xyz".toList
    name := some "t3_xyz".toList
    post_hint := []
    url_overridden_by_dest := none
    url := none
    is_video := false
    is_gallery := false
    stickied := false
    crosspost_parent_list := [] }

def cCfgC6 : Config := ⟨200, 600, 220⟩

theorem C6_witness :
    (handle_post false [] cCfgC6 cPostC6 [] [] SendOutcome.ok).sent = true ∧
    (handle_post false [] cCfgC6 cPostC6 [] [] SendOutcome.ok).state
      = [(post_id_of cPostC6, true)] ∧
    (handle_post false [] cCfgC6 cPostC6 [] [] SendOutcome.failed).state = [] ∧
    (handle_post false [] cCfgC6 cPostC6 [] [] SendOutcome.failed).saved = false ∧
    (handle_post false [] cCfgC6 cPostC6 [] [] SendOutcome.raised).state = [] := by
  have h1 := C6_handle_post_state false [] cCfgC6 cPostC6 [] [] SendOutcome.ok
  have h2 := C6_handle_post_state false [] cCfgC6 cPostC6 [] [] SendOutcome.failed
  have h3 := C6_handle_post_state false [] cCfgC6 cPostC6 [] [] SendOutcome.raised
  exact ⟨(h1.2.1 (by decide) rfl).1, (h1.2.1 (by decide) rfl).2.1,
    (h2.2.2 (by decide)).1, (h2.2.2 (by decide)).2.1, (h3.2.2 (by decide)).1⟩

def cPostC7 : Post :=
  { cPostC6 with stickied := true }

theorem C7_witness :
    handle_post false [] cCfgC6 cPostC7 [] [] SendOutcome.ok
      = ⟨false, [], false, none⟩ ∧
    (handle_post false [] cCfgC6 cPostC6 [] [(post_id_of cPostC6, true)]
        SendOutcome.ok).call = none ∧
    (handle_post true [] cCfgC6 cPostC7 [] [(post_id_of cPostC7, true)]
        SendOutcome.ok).call.isSome := by
  have h1 := (C7_handle_post_skip false [] cCfgC6 cPostC7 [] [] SendOutcome.ok).1
    (by decide) rfl
  have h2 := ((C7_handle_post_skip false [] cCfgC6 cPostC6 []
    [(post_id_of cPostC6, true)] SendOutcome.ok).2.1 (by decide) rfl).2.2
  have h3 := (C7_handle_post_skip true [] cCfgC6 cPostC7 []
    [(post_id_of cPostC7, true)] SendOutcome.ok).2.2 rfl
  exact ⟨h1, h2, h3⟩

/-! ## C8: gallery image resolution and text fallback -/

/-- C8: when the first gallery entry has no original-resolution source URL,
`first_gallery_image` returns the last preview entry's URL with `&amp;`
unescaped; when the preview lookup fails too it returns `none`, and the
dispatcher then sends the caption as a text message with the best available
link appended. -/
theorem C8_gallery_preview_fallback :
    (∀ (c : PostCore) (md : List (PyStr × MediaItem)) (g : GalleryData)
        (it : GalleryItem) (rest : List GalleryItem) (fid : PyStr)
        (ps : List PreviewEntry) (pe : PreviewEntry) (u : PyStr),
      c.media_metadata = some md → md ≠ [] →
      c.gallery_data = some g → g.items = some (it :: rest) →
      it.media_id = some fid →
      ((md.lookup fid).getD ⟨none, none⟩).s.bind SourceEntry.u = none →
      ((md.lookup fid).getD ⟨none, none⟩).p = some ps →
      ps.getLast? = some pe → pe.u = some u →
      first_gallery_image c = some (replaceAmp u)) ∧
    (∀ (c : PostCore) (md : List (PyStr × MediaItem)) (g : GalleryData)
        (it : GalleryItem) (rest : List GalleryItem) (fid : PyStr),
      c.media_metadata = some md → md ≠ [] →
      c.gallery_data = some g → g.items = some (it :: rest) →
      it.media_id = some fid →
      ((md.lookup fid).getD ⟨none, none⟩).s.bind SourceEntry.u = none →
      (((md.lookup fid).getD ⟨none, none⟩).p = none
        ∨ ((md.lookup fid).getD ⟨none, none⟩).p = some []) →
      first_gallery_image c = none) ∧
    (∀ (mm : PyStr) (d : Post) (caption : PyStr),
      first_gallery_image (extract_crosspost_root d) = none →
      d.is_gallery = true → d.is_video = false →
      d.post_hint ≠ "hosted:video".toList → mm ≠ "text_only".toList →
      dispatchCall mm d caption (is_media_post d)
        = SendCall.sendMessage (caption ++ "\n\n".toList
            ++ htmlEscape (pyOrStr (pyOr d.url_overridden_by_dest d.url)
                ("https://www.reddit.com".toList ++ d.permalink)))) := by
  refine ⟨?_, ?_, ?_⟩
  · intro c md g it rest fid ps pe u hmd hne hgd hitems hmid hs hp hlast hu
    cases md with
    | nil => exact absurd rfl hne
    | cons m ms =>
      cases ps with
      | nil => simp at hlast
      | cons p0 ps' =>
        unfold first_gallery_image
        rw [hmd, hgd]
        dsimp only
        rw [hitems]
        dsimp only
        rw [hmid]
        dsimp only
        rw [hs, hp]
        dsimp only
        rw [hlast]
        dsimp only [Option.bind]
        rw [hu]
  · intro c md g it rest fid hmd hne hgd hitems hmid hs hp
    cases md with
    | nil => exact absurd rfl hne
    | cons m ms =>
      unfold first_gallery_image
      rw [hmd, hgd]
      dsimp only
      rw [hitems]
      dsimp only
      rw [hmid]
      dsimp only
      rw [hs]
      rcases hp with hp | hp
      · rw [hp]
      · rw [hp]
  · intro mm d caption hnone hgal hvid hhint hmm
    have hm : is_media_post d = true := by
      unfold is_media_post
      rw [hgal]
      simp
    unfold dispatchCall
    dsimp only
    rw [if_pos ⟨hmm, hm⟩,
      if_neg (by
        simp only [hvid, Bool.false_or, Bool.or_eq_true, beq_iff_eq]
        exact hhint),
      if_pos hgal, hnone]

def cMdC8 : List (PyStr × MediaItem) :=
  [("m1".toList,
    ⟨some ⟨none⟩, some [⟨some "a&amp;b".toList⟩, ⟨some "c&amp;d".toList⟩]⟩)]

def cCoreC8 : PostCore :=
  ⟨none, none, none, some cMdC8, some ⟨some [⟨some "m1".toList⟩]⟩⟩

def cMdC8b : List (PyStr × MediaItem) :=
  [("m1".toList, ⟨some ⟨none⟩, some []⟩)]

def cCoreC8b : PostCore :=
  ⟨none, none, none, some cMdC8b, some ⟨some [⟨some "m1".toList⟩]⟩⟩

def cPostC8 : Post :=
  { core := cCoreC8b
    title := "Gallery".toList
    permalink := "/r/nba/g".toList
    id := none
    name := none
    post_hint := []
    url_overridden_by_dest := none
    url := none
    is_video := false
    is_gallery := true
    stickied := false
    crosspost_parent_list := [] }

theorem C8_witness :
    first_gallery_image cCoreC8 = some (replaceAmp "c&amp;d".toList) ∧
    first_gallery_image cCoreC8b = none ∧
    dispatchCall [] cPostC8 "cap".toList (is_media_post cPostC8)
      = SendCall.sendMessage ("cap".toList ++ "\n\n".toList
          ++ htmlEscape (pyOrStr (pyOr cPostC8.url_overridden_by_dest cPostC8.url)
              ("https://www.reddit.com".toList ++ cPostC8.permalink))) := by
  have h := C8_gallery_preview_fallback
  refine ⟨?_, ?_, ?_⟩
  · exact h.1 cCoreC8 cMdC8 ⟨some [⟨some "m1".toList⟩]⟩ ⟨some "m1".toList⟩ []
      "m1".toList [⟨some "a&amp;b".toList⟩, ⟨some "c&amp;d".toList⟩]
      ⟨some "c&amp;d".toList⟩ "c&amp;d".toList
      rfl (by decide) rfl rfl rfl (by decide) (by decide) (by decide) rfl
  · exact h.2.1 cCoreC8b cMdC8b ⟨some [⟨some "m1".toList⟩]⟩ ⟨some "m1".toList⟩ []
      "m1".toList rfl (by decide) rfl rfl rfl (by decide) (Or.inr (by decide))
  · exact h.2.2 [] cPostC8 "cap".toList (by decide) rfl rfl (by decide) (by decide)

/-! ## C9: missing credentials abort before any network call -/

/-- An environment with the destination pair set, the source quadruple
absent, and `FORCE_PROXY=1`. -/
def cEnvC9 : MainEnv :=
  ⟨some "tok".toList, some "chat".toList, none, none, none, none, true, false⟩

/-- C9 counterexample: with `FORCE_PROXY=1` the Reddit credential pair is
never consulted — the run's first event is the proxy network call, and no
exit happens, although the source credentials are absent. -/
theorem C9_counterexample :
    ¬ (pyTruthy cEnvC9.clientId = true ∧ pyTruthy cEnvC9.clientSecret = true
        ∧ pyTruthy cEnvC9.username = true ∧ pyTruthy cEnvC9.password = true) ∧
    startup cEnvC9 = StartEvent.networkCall NetTarget.proxyFetch ∧
    startup cEnvC9 ≠ StartEvent.exitNonZero := by
  refine ⟨by decide, by decide, by decide⟩

/-- C9 (amended): a missing destination pair (`BOT_TOKEN`/`CHAT_ID`) always
exits non-zero before any network call; a missing source quadruple exits
non-zero before any network call provided the startup-ping and force-proxy
toggles are off (their defaults) — with force-proxy on the source pair is
never consulted, and with the ping on a destination call precedes the
check. -/
theorem C9_missing_credentials :
    ∀ e : MainEnv,
      (¬ (pyTruthy e.botToken = true ∧ pyTruthy e.chatId = true) →
        startup e = StartEvent.exitNonZero) ∧
      (e.pingOnStart = false → e.forceProxy = false →
        ¬ (pyTruthy e.clientId = true ∧ pyTruthy e.clientSecret = true
            ∧ pyTruthy e.username = true ∧ pyTruthy e.password = true) →
        startup e = StartEvent.exitNonZero) := by
  intro e
  constructor
  · intro h
    unfold startup
    rw [if_pos (by tauto)]
  · intro hping hproxy hc
    unfold startup
    by_cases hbc : ¬ pyTruthy e.botToken = true ∨ ¬ pyTruthy e.chatId = true
    · rw [if_pos hbc]
    · rw [if_neg hbc, if_neg (by simp [hping]), if_neg (by simp [hproxy]),
        if_pos hc]

theorem C9_witness :
    startup ⟨none, none, some "i".toList, some "s".toList, some "u".toList,
        some "p".toList, false, false⟩ = StartEvent.exitNonZero ∧
    startup ⟨some "tok".toList, some "chat".toList, none, none, none, none,
        false, false⟩ = StartEvent.exitNonZero := by
  constructor
  · exact (C9_missing_credentials _).1 (by decide)
  · exact (C9_missing_credentials _).2 rfl rfl (by decide)
